import Mathlib

/-!
A shallow embedding of the UUIDv7 generator in `src/pguuidv7.c` (function
`uuidv7`), together with proofs about its specification.

The C function keeps two `static` variables, `sequence_counter` (`uint32`)
and `previous_timestamp` (`uint64`), reads the wall clock in milliseconds,
draws random bytes from `pg_strong_random`, and produces a 16-byte UUID.
We model one call as a pure function of the pre-call state, the clock
reading, a flag saying whether the random source succeeds, and a stream of
random bytes.  Machine integers are carried as `Nat` with explicit
`% 2 ^ 32` / `% 2 ^ 64` / `% 256` reductions exactly where the C code can
wrap.  A UUID is a `List Nat` of its 16 byte values.
-/

namespace PgUuidV7

/-- `UUID_LEN` from PostgreSQL's `utils/uuid.h`: a UUID is 16 bytes. -/
def UUID_LEN : Nat := 16

/-- The generator's backend-local state: the two `static` variables of
`uuidv7` (lines 65-66 of `src/pguuidv7.c`).  `sequence_counter` is a C
`uint32`, `previous_timestamp` a C `uint64`. -/
structure GenState where
  sequence_counter : Nat
  previous_timestamp : Nat
  deriving DecidableEq, Repr

/-- Result of one call: the produced UUID bytes (`none` when
`pg_strong_random` failed and the call aborted via `ereport(ERROR, ...)`),
the values of the two static variables after the call, and how many random
bytes were requested from `pg_strong_random`. -/
structure GenResult where
  uuid : Option (List Nat)
  state : GenState
  bytesRequested : Nat
  deriving DecidableEq, Repr

/-- The big-endian 48-bit timestamp bytes written at lines 133-138: each
byte is the C cast `(unsigned char) (tms >> k)`, i.e. `(tms >>> k) % 256`. -/
def tsBytes (tms : Nat) : List Nat :=
  [(tms >>> 40) % 256, (tms >>> 32) % 256, (tms >>> 24) % 256,
   (tms >>> 16) % 256, (tms >>> 8) % 256, tms % 256]

/-- Counter reconstruction from UUID bytes 6-8, lines 95-97:
`(data[8] & 0x3f) + (data[7] << 6) + ((data[6] & 0x0f) << 14)`. -/
def unpack_counter (b6 b7 b8 : Nat) : Nat :=
  (b8 &&& 0x3f) + (b7 <<< 6) + ((b6 &&& 0x0f) <<< 14)

/-- Counter write into bytes 6-8, lines 125-129: each component is the C
cast `(unsigned char) (sequence_counter >> k)`. -/
def pack_counter (c : Nat) : Nat × Nat × Nat :=
  ((c >>> 14) % 256, (c >>> 6) % 256, c % 256)

/-- The counter increment with 18-bit overflow handling, lines 107-113:
`++sequence_counter` is a `uint32` increment; on overflow past `0x3ffff`
the counter resets to 0 and `previous_timestamp++` is a `uint64`
increment. -/
def incrementState (st : GenState) : GenState :=
  if (st.sequence_counter + 1) % 2 ^ 32 > 0x3ffff then
    { sequence_counter := 0,
      previous_timestamp := (st.previous_timestamp + 1) % 2 ^ 64 }
  else
    { sequence_counter := (st.sequence_counter + 1) % 2 ^ 32,
      previous_timestamp := st.previous_timestamp }

/-- The final fix-up common to both branches, lines 132-147: timestamp into
bytes 0-5, version nibble `0111` into byte 6, variant bits `10` into byte
8.  `b6`, `b7`, `b8` are the values of `data[6..8]` before the fix-up and
`tail` is bytes 9-15. -/
def finalize (tms b6 b7 b8 : Nat) (tail : List Nat) : List Nat :=
  tsBytes tms ++ [(b6 &&& 0x0f) ||| 0x70, b7, (b8 &&& 0x3f) ||| 0x80] ++ tail

/-- The UUID produced by the `time_tick_forward` branch (lines 78-99 plus
the common fix-up): bytes 6-15 are the 10 random bytes, bit 3 of byte 6 is
cleared (`data[6] & 0xf7`, line 92), then the fix-up overwrites bytes 0-5
with the timestamp and sets version/variant. -/
def advanceUuid (tms : Nat) (rnd : Nat → Nat) : List Nat :=
  finalize tms ((rnd 0 % 256) &&& 0xf7) (rnd 1 % 256) (rnd 2 % 256)
    [rnd 3 % 256, rnd 4 % 256, rnd 5 % 256, rnd 6 % 256, rnd 7 % 256,
     rnd 8 % 256, rnd 9 % 256]

/-- The counter committed by the `time_tick_forward` branch (lines 95-97):
reconstructed from the randomly initialized bytes 6-8 after clearing bit 3
of byte 6. -/
def advanceSeq (rnd : Nat → Nat) : Nat :=
  unpack_counter ((rnd 0 % 256) &&& 0xf7) (rnd 1 % 256) (rnd 2 % 256)

/-- The UUID produced by the non-advancing branch (lines 101-130 plus the
common fix-up) once the post-increment state `st2` is committed: bytes 9-15
are the 7 random bytes and bytes 6-8 carry the packed counter. -/
def tickUuid (st2 : GenState) (rnd : Nat → Nat) : List Nat :=
  finalize st2.previous_timestamp (pack_counter st2.sequence_counter).1
    (pack_counter st2.sequence_counter).2.1
    (pack_counter st2.sequence_counter).2.2
    [rnd 0 % 256, rnd 1 % 256, rnd 2 % 256, rnd 3 % 256, rnd 4 % 256,
     rnd 5 % 256, rnd 6 % 256]

/-- One call of `uuidv7` (lines 62-150).  `clock` is the millisecond
reading `tms = tv_sec * 1000 + tv_usec / 1000` computed in `uint64`
arithmetic; `entropyOk` tells whether `pg_strong_random` succeeds during
this call; `rnd i` is the `i`-th random byte it yields (reduced `% 256`
since C delivers bytes).  On `ereport(ERROR, ...)` the function aborts
with no UUID, keeping whatever had already been assigned to the two
static variables: nothing in the `time_tick_forward` branch (the random
fill comes first there), the already-incremented state in the other
branch (lines 107-113 run before the `pg_strong_random` at line 119). -/
def generate (st : GenState) (clock : Nat) (entropyOk : Bool)
    (rnd : Nat → Nat) : GenResult :=
  if clock % 2 ^ 64 > st.previous_timestamp then
    -- time_tick_forward: fill bytes 6-15 with 10 random bytes first
    if entropyOk then
      { uuid := some (advanceUuid (clock % 2 ^ 64) rnd),
        state := { sequence_counter := advanceSeq rnd,
                   previous_timestamp := clock % 2 ^ 64 },
        bytesRequested := 10 }
    else
      { uuid := none, state := st, bytesRequested := 10 }
  else
    -- time did not advance: increment the counter, then draw 7 random bytes
    if entropyOk then
      { uuid := some (tickUuid (incrementState st) rnd),
        state := incrementState st, bytesRequested := 7 }
    else
      { uuid := none, state := incrementState st, bytesRequested := 7 }

/-- The decoded 48-bit timestamp field: bytes 0-5, big-endian. -/
def decodeTimestamp : List Nat → Nat
  | a0 :: a1 :: a2 :: a3 :: a4 :: a5 :: _ =>
    a0 * 2 ^ 40 + a1 * 2 ^ 32 + a2 * 2 ^ 24 + a3 * 2 ^ 16 + a4 * 2 ^ 8 + a5
  | _ => 0

/-- The decoded 18-bit counter field: low nibble of byte 6, byte 7, low 6
bits of byte 8 (the layout of lines 95-97 / 124-129). -/
def decodeCounter : List Nat → Nat
  | _ :: _ :: _ :: _ :: _ :: _ :: b6 :: b7 :: b8 :: _ =>
    ((b6 &&& 0x0f) <<< 14) + (b7 <<< 6) + (b8 &&& 0x3f)
  | _ => 0

/-- The version field: the high nibble of byte 6. -/
def versionNibble : List Nat → Nat
  | _ :: _ :: _ :: _ :: _ :: _ :: b6 :: _ => b6 >>> 4
  | _ => 0

/-- The variant field: the top 2 bits of byte 8. -/
def variantBits : List Nat → Nat
  | _ :: _ :: _ :: _ :: _ :: _ :: _ :: _ :: b8 :: _ => b8 >>> 6
  | _ => 0

/-- A 16-byte UUID read as a 128-bit big-endian unsigned integer. -/
def toBigEndianNat (u : List Nat) : Nat :=
  u.foldl (fun a b => a * 256 + b) 0

/-- A sequence of consecutive successful calls on one instance: each call
supplies a clock reading and a random-byte stream; the outputs are
collected in call order. -/
def runTrace (st : GenState) (calls : List (Nat × (Nat → Nat))) :
    List (List Nat) × GenState :=
  match calls with
  | [] => ([], st)
  | (c, r) :: rest =>
    let res := generate st c true r
    match res.uuid with
    | none => ([], res.state)
    | some u =>
      let t := runTrace res.state rest
      (u :: t.1, t.2)

/-- Modelled from the spec's words (§4.3c and the claim): a counter
reconstruction that takes the *top 2 bits* of byte 8 instead of its low 6
bits, keeping the rest of the stated layout.  Used only to compare the
spec's description against the source's `unpack_counter`. -/
def unpack_counter_top2 (b6 b7 b8 : Nat) : Nat :=
  (b8 >>> 6) + (b7 <<< 6) + ((b6 &&& 0x0f) <<< 14)

/-- The shape of every UUID a call can return whose final committed state is
`st`: the bytes are a `finalize` image over the committed timestamp, the
free bytes are genuine byte values, and bytes 6-8 encode the committed
counter. -/
def Link (st : GenState) (u : List Nat) : Prop :=
  ∃ b6 b7 b8 c0 c1 c2 c3 c4 c5 c6,
    u = finalize st.previous_timestamp b6 b7 b8 [c0, c1, c2, c3, c4, c5, c6] ∧
    b7 < 256 ∧ c0 < 256 ∧ c1 < 256 ∧ c2 < 256 ∧ c3 < 256 ∧ c4 < 256 ∧
    c5 < 256 ∧ c6 < 256 ∧ unpack_counter b6 b7 b8 = st.sequence_counter

/-! ### Byte-level arithmetic lemmas -/

lemma and_fifteen (x : Nat) : x &&& 15 = x % 16 := by
  simpa using Nat.and_pow_two_sub_one_eq_mod x 4

lemma and_sixtythree (x : Nat) : x &&& 63 = x % 64 := by
  simpa using Nat.and_pow_two_sub_one_eq_mod x 6

lemma or_version : ∀ x < 16, x ||| 112 = 112 + x := by decide

lemma or_variant : ∀ x < 64, x ||| 128 = 128 + x := by decide

lemma version_byte (b6 : Nat) : (b6 &&& 0x0f) ||| 0x70 = 112 + b6 % 16 := by
  rw [and_fifteen]
  exact or_version _ (Nat.mod_lt _ (by norm_num))

lemma variant_byte (b8 : Nat) : (b8 &&& 0x3f) ||| 0x80 = 128 + b8 % 64 := by
  rw [and_sixtythree]
  exact or_variant _ (Nat.mod_lt _ (by norm_num))

lemma unpack_counter_eq (b6 b7 b8 : Nat) :
    unpack_counter b6 b7 b8 = b8 % 64 + b7 * 64 + b6 % 16 * 16384 := by
  unfold unpack_counter
  rw [and_fifteen, and_sixtythree, Nat.shiftLeft_eq, Nat.shiftLeft_eq]

lemma unpack_counter_le (b6 b7 b8 : Nat) (h7 : b7 < 256) :
    unpack_counter b6 b7 b8 ≤ 0x3ffff := by
  rw [unpack_counter_eq]
  have h1 : b8 % 64 < 64 := Nat.mod_lt _ (by norm_num)
  have h2 : b6 % 16 < 16 := Nat.mod_lt _ (by norm_num)
  omega

lemma pack_unpack (c : Nat) (h : c ≤ 0x3ffff) :
    unpack_counter (pack_counter c).1 (pack_counter c).2.1 (pack_counter c).2.2
      = c := by
  simp only [pack_counter]
  rw [unpack_counter_eq]
  rw [Nat.shiftRight_eq_div_pow, Nat.shiftRight_eq_div_pow]
  omega

/-! ### Decoding the fields of a finalized UUID -/

lemma finalize_explicit (tms b6 b7 b8 : Nat) (tail : List Nat) :
    finalize tms b6 b7 b8 tail =
      (tms >>> 40) % 256 :: (tms >>> 32) % 256 :: (tms >>> 24) % 256 ::
      (tms >>> 16) % 256 :: (tms >>> 8) % 256 :: tms % 256 ::
      (112 + b6 % 16) :: b7 :: (128 + b8 % 64) :: tail := by
  simp [finalize, tsBytes, version_byte, variant_byte]

lemma decodeTimestamp_finalize (tms b6 b7 b8 : Nat) (tail : List Nat) :
    decodeTimestamp (finalize tms b6 b7 b8 tail) = tms % 2 ^ 48 := by
  rw [finalize_explicit]
  show (tms >>> 40) % 256 * 2 ^ 40 + (tms >>> 32) % 256 * 2 ^ 32 +
      (tms >>> 24) % 256 * 2 ^ 24 + (tms >>> 16) % 256 * 2 ^ 16 +
      (tms >>> 8) % 256 * 2 ^ 8 + tms % 256 = tms % 2 ^ 48
  rw [Nat.shiftRight_eq_div_pow, Nat.shiftRight_eq_div_pow,
    Nat.shiftRight_eq_div_pow, Nat.shiftRight_eq_div_pow,
    Nat.shiftRight_eq_div_pow]
  omega

lemma decodeCounter_finalize (tms b6 b7 b8 : Nat) (tail : List Nat) :
    decodeCounter (finalize tms b6 b7 b8 tail) = unpack_counter b6 b7 b8 := by
  rw [finalize_explicit, unpack_counter_eq]
  show ((112 + b6 % 16) &&& 15) <<< 14 + b7 <<< 6 + ((128 + b8 % 64) &&& 63) =
    b8 % 64 + b7 * 64 + b6 % 16 * 16384
  rw [and_fifteen, and_sixtythree, Nat.shiftLeft_eq, Nat.shiftLeft_eq]
  omega

lemma versionNibble_finalize (tms b6 b7 b8 : Nat) (tail : List Nat) :
    versionNibble (finalize tms b6 b7 b8 tail) = 7 := by
  rw [finalize_explicit]
  show (112 + b6 % 16) >>> 4 = 7
  rw [Nat.shiftRight_eq_div_pow]
  omega

lemma variantBits_finalize (tms b6 b7 b8 : Nat) (tail : List Nat) :
    variantBits (finalize tms b6 b7 b8 tail) = 2 := by
  rw [finalize_explicit]
  show (128 + b8 % 64) >>> 6 = 2
  rw [Nat.shiftRight_eq_div_pow]
  omega

lemma toBigEndianNat_finalize (t b6 b7 b8 c0 c1 c2 c3 c4 c5 c6 : Nat) :
    toBigEndianNat (finalize t b6 b7 b8 [c0, c1, c2, c3, c4, c5, c6]) =
      t % 2 ^ 48 * 2 ^ 80 + (112 + b6 % 16) * 2 ^ 72 + b7 * 2 ^ 64 +
        (128 + b8 % 64) * 2 ^ 56 + c0 * 2 ^ 48 + c1 * 2 ^ 40 + c2 * 2 ^ 32 +
        c3 * 2 ^ 24 + c4 * 2 ^ 16 + c5 * 2 ^ 8 + c6 := by
  rw [finalize_explicit]
  simp only [toBigEndianNat, List.foldl]
  rw [Nat.shiftRight_eq_div_pow, Nat.shiftRight_eq_div_pow,
    Nat.shiftRight_eq_div_pow, Nat.shiftRight_eq_div_pow,
    Nat.shiftRight_eq_div_pow]
  omega

/-! ### Unfolding the branches of `generate` -/

lemma generate_adv {st : GenState} {clock : Nat} (rnd : Nat → Nat)
    (h : clock % 2 ^ 64 > st.previous_timestamp) :
    generate st clock true rnd =
      ⟨some (advanceUuid (clock % 2 ^ 64) rnd),
        ⟨advanceSeq rnd, clock % 2 ^ 64⟩, 10⟩ := by
  unfold generate
  rw [if_pos h]
  rfl

lemma generate_nonadv {st : GenState} {clock : Nat} (rnd : Nat → Nat)
    (h : ¬ clock % 2 ^ 64 > st.previous_timestamp) :
    generate st clock true rnd =
      ⟨some (tickUuid (incrementState st) rnd), incrementState st, 7⟩ := by
  unfold generate
  rw [if_neg h]
  rfl

lemma generate_fail_adv {st : GenState} {clock : Nat} (rnd : Nat → Nat)
    (h : clock % 2 ^ 64 > st.previous_timestamp) :
    generate st clock false rnd = ⟨none, st, 10⟩ := by
  unfold generate
  rw [if_pos h]
  rfl

lemma generate_fail_nonadv {st : GenState} {clock : Nat} (rnd : Nat → Nat)
    (h : ¬ clock % 2 ^ 64 > st.previous_timestamp) :
    generate st clock false rnd = ⟨none, incrementState st, 7⟩ := by
  unfold generate
  rw [if_neg h]
  rfl

lemma generate_true_some (st : GenState) (clock : Nat) (rnd : Nat → Nat) :
    ∃ u, (generate st clock true rnd).uuid = some u := by
  by_cases h : clock % 2 ^ 64 > st.previous_timestamp
  · rw [generate_adv rnd h]
    exact ⟨_, rfl⟩
  · rw [generate_nonadv rnd h]
    exact ⟨_, rfl⟩

/-! ### The committed state after a call -/

lemma incrementState_seq_le (st : GenState) :
    (incrementState st).sequence_counter ≤ 0x3ffff := by
  unfold incrementState
  split <;> dsimp only <;> omega

lemma incrementState_of_max {st : GenState} (h : st.sequence_counter = 0x3ffff) :
    incrementState st =
      ⟨0, (st.previous_timestamp + 1) % 2 ^ 64⟩ := by
  unfold incrementState
  rw [h]
  norm_num

lemma incrementState_of_lt {st : GenState} (h : st.sequence_counter < 0x3ffff) :
    incrementState st = ⟨st.sequence_counter + 1, st.previous_timestamp⟩ := by
  unfold incrementState
  have h1 : (st.sequence_counter + 1) % 2 ^ 32 = st.sequence_counter + 1 :=
    Nat.mod_eq_of_lt (by omega)
  rw [h1, if_neg (by omega)]

lemma generate_seq_le (st : GenState) (clock : Nat) (rnd : Nat → Nat) :
    (generate st clock true rnd).state.sequence_counter ≤ 0x3ffff := by
  by_cases h : clock % 2 ^ 64 > st.previous_timestamp
  · rw [generate_adv rnd h]
    exact unpack_counter_le _ _ _ (Nat.mod_lt _ (by norm_num))
  · rw [generate_nonadv rnd h]
    exact incrementState_seq_le st

lemma generate_prev_cases (st : GenState) (clock : Nat) (rnd : Nat → Nat)
    (hc : clock < 2 ^ 64) :
    (generate st clock true rnd).state.previous_timestamp ≤
        st.previous_timestamp + 1 ∨
      (generate st clock true rnd).state.previous_timestamp = clock := by
  by_cases h : clock % 2 ^ 64 > st.previous_timestamp
  · right
    rw [generate_adv rnd h]
    exact Nat.mod_eq_of_lt hc
  · left
    rw [generate_nonadv rnd h]
    unfold incrementState
    split <;> dsimp only
    · exact Nat.mod_le _ _
    · exact Nat.le_succ _

/-- The output of every successful call is linked to the committed state. -/
lemma generate_link (st : GenState) (clock : Nat) (rnd : Nat → Nat) :
    Link (generate st clock true rnd).state
      ((generate st clock true rnd).uuid.getD []) := by
  by_cases h : clock % 2 ^ 64 > st.previous_timestamp
  · rw [generate_adv rnd h]
    refine ⟨(rnd 0 % 256) &&& 0xf7, rnd 1 % 256, rnd 2 % 256, rnd 3 % 256,
      rnd 4 % 256, rnd 5 % 256, rnd 6 % 256, rnd 7 % 256, rnd 8 % 256,
      rnd 9 % 256, rfl, ?_, ?_, ?_, ?_, ?_, ?_, ?_, ?_, rfl⟩ <;>
      exact Nat.mod_lt _ (by norm_num)
  · rw [generate_nonadv rnd h]
    refine ⟨(pack_counter (incrementState st).sequence_counter).1,
      (pack_counter (incrementState st).sequence_counter).2.1,
      (pack_counter (incrementState st).sequence_counter).2.2,
      rnd 0 % 256, rnd 1 % 256, rnd 2 % 256, rnd 3 % 256, rnd 4 % 256,
      rnd 5 % 256, rnd 6 % 256, rfl, ?_, ?_, ?_, ?_, ?_, ?_, ?_, ?_, ?_⟩
    · exact Nat.mod_lt _ (by norm_num)
    · exact Nat.mod_lt _ (by norm_num)
    · exact Nat.mod_lt _ (by norm_num)
    · exact Nat.mod_lt _ (by norm_num)
    · exact Nat.mod_lt _ (by norm_num)
    · exact Nat.mod_lt _ (by norm_num)
    · exact Nat.mod_lt _ (by norm_num)
    · exact Nat.mod_lt _ (by norm_num)
    · exact pack_unpack _ (incrementState_seq_le st)

/-! ### Decoded fields of a successful call -/

lemma generate_decodeTimestamp (st : GenState) (clock : Nat) (rnd : Nat → Nat) :
    decodeTimestamp ((generate st clock true rnd).uuid.getD []) =
      (generate st clock true rnd).state.previous_timestamp % 2 ^ 48 := by
  by_cases h : clock % 2 ^ 64 > st.previous_timestamp
  · rw [generate_adv rnd h]
    show decodeTimestamp (advanceUuid (clock % 2 ^ 64) rnd) = clock % 2 ^ 64 % 2 ^ 48
    unfold advanceUuid
    exact decodeTimestamp_finalize _ _ _ _ _
  · rw [generate_nonadv rnd h]
    show decodeTimestamp (tickUuid (incrementState st) rnd) =
      (incrementState st).previous_timestamp % 2 ^ 48
    unfold tickUuid
    exact decodeTimestamp_finalize _ _ _ _ _

lemma generate_decodeCounter (st : GenState) (clock : Nat) (rnd : Nat → Nat) :
    decodeCounter ((generate st clock true rnd).uuid.getD []) =
      (generate st clock true rnd).state.sequence_counter := by
  by_cases h : clock % 2 ^ 64 > st.previous_timestamp
  · rw [generate_adv rnd h]
    show decodeCounter (advanceUuid (clock % 2 ^ 64) rnd) = advanceSeq rnd
    unfold advanceUuid advanceSeq
    exact decodeCounter_finalize _ _ _ _ _
  · rw [generate_nonadv rnd h]
    show decodeCounter (tickUuid (incrementState st) rnd) =
      (incrementState st).sequence_counter
    unfold tickUuid
    rw [decodeCounter_finalize]
    exact pack_unpack _ (incrementState_seq_le st)

lemma decodeTimestamp_advanceUuid (tms : Nat) (r : Nat → Nat) :
    decodeTimestamp (advanceUuid tms r) = tms % 2 ^ 48 := by
  unfold advanceUuid
  exact decodeTimestamp_finalize _ _ _ _ _

lemma decodeTimestamp_tickUuid (s : GenState) (r : Nat → Nat) :
    decodeTimestamp (tickUuid s r) = s.previous_timestamp % 2 ^ 48 := by
  unfold tickUuid
  exact decodeTimestamp_finalize _ _ _ _ _

lemma decodeCounter_tickUuid (s : GenState) (r : Nat → Nat)
    (h : s.sequence_counter ≤ 0x3ffff) :
    decodeCounter (tickUuid s r) = s.sequence_counter := by
  unfold tickUuid
  rw [decodeCounter_finalize]
  exact pack_unpack _ h

/-! ### Strict growth of the 128-bit value across one call -/

lemma step_mono (st : GenState) (u : List Nat) (clock : Nat) (rnd : Nat → Nat)
    (hL : Link st u) (hseq : st.sequence_counter ≤ 0x3ffff)
    (hprev : st.previous_timestamp + 1 < 2 ^ 48) (hclock : clock < 2 ^ 48) :
    toBigEndianNat u <
      toBigEndianNat ((generate st clock true rnd).uuid.getD []) := by
  obtain ⟨b6, b7, b8, c0, c1, c2, c3, c4, c5, c6, hu, h7, h0, h1, h2, h3, h4,
    h5, h6, hcnt⟩ := hL
  subst hu
  rw [unpack_counter_eq] at hcnt
  rw [toBigEndianNat_finalize]
  have hckeq : clock % 2 ^ 64 = clock := Nat.mod_eq_of_lt (by omega)
  by_cases h : clock % 2 ^ 64 > st.previous_timestamp
  · rw [generate_adv rnd h]
    show _ < toBigEndianNat (advanceUuid (clock % 2 ^ 64) rnd)
    rw [hckeq] at h ⊢
    unfold advanceUuid
    rw [toBigEndianNat_finalize]
    omega
  · rw [generate_nonadv rnd h]
    show _ < toBigEndianNat (tickUuid (incrementState st) rnd)
    by_cases hov : st.sequence_counter = 0x3ffff
    · rw [incrementState_of_max hov]
      unfold tickUuid
      simp only [pack_counter]
      rw [toBigEndianNat_finalize]
      have hm : (st.previous_timestamp + 1) % 2 ^ 64 =
          st.previous_timestamp + 1 := Nat.mod_eq_of_lt (by omega)
      rw [hm]
      rw [Nat.shiftRight_eq_div_pow, Nat.shiftRight_eq_div_pow]
      omega
    · rw [incrementState_of_lt (by omega)]
      unfold tickUuid
      simp only [pack_counter]
      rw [toBigEndianNat_finalize]
      rw [Nat.shiftRight_eq_div_pow, Nat.shiftRight_eq_div_pow]
      omega

/-! ### Chains of successful calls -/

lemma runTrace_cons (st : GenState) (c : Nat) (r : Nat → Nat)
    (rest : List (Nat × (Nat → Nat))) :
    (runTrace st ((c, r) :: rest)).1 =
      (generate st c true r).uuid.getD [] ::
        (runTrace (generate st c true r).state rest).1 := by
  obtain ⟨u, hu⟩ := generate_true_some st c r
  simp [runTrace, hu]

lemma chain_aux (calls : List (Nat × (Nat → Nat))) :
    ∀ (st : GenState) (u : List Nat),
      Link st u → st.sequence_counter ≤ 0x3ffff →
      st.previous_timestamp + calls.length < 2 ^ 48 →
      (∀ p ∈ calls, p.1 + calls.length < 2 ^ 48) →
      List.Chain' (fun a b => toBigEndianNat a < toBigEndianNat b)
        (u :: (runTrace st calls).1) := by
  induction calls with
  | nil =>
    intro st u _ _ _ _
    simp [runTrace]
  | cons hd rest ih =>
    intro st u hL hseq hprev hclocks
    obtain ⟨c, r⟩ := hd
    simp only [List.length_cons] at hprev
    have hc : c + (rest.length + 1) < 2 ^ 48 := by
      simpa using hclocks (c, r) (by simp)
    rw [runTrace_cons, List.chain'_cons]
    refine ⟨step_mono st u c r hL hseq (by omega) (by omega), ?_⟩
    apply ih _ _ (generate_link st c r) (generate_seq_le st c r)
    · rcases generate_prev_cases st c r (by omega) with hp | hp <;> omega
    · intro p hp
      have := hclocks p (List.mem_cons_of_mem _ hp)
      simp only [List.length_cons] at this
      omega

/-! ### Decoded fields of the byte array before the version/variant fix-up -/

lemma decodeTimestamp_raw (t b6 b7 b8 : Nat) (tail : List Nat) :
    decodeTimestamp (tsBytes t ++ [b6, b7, b8] ++ tail) = t % 2 ^ 48 := by
  show (t >>> 40) % 256 * 2 ^ 40 + (t >>> 32) % 256 * 2 ^ 32 +
      (t >>> 24) % 256 * 2 ^ 24 + (t >>> 16) % 256 * 2 ^ 16 +
      (t >>> 8) % 256 * 2 ^ 8 + t % 256 = t % 2 ^ 48
  rw [Nat.shiftRight_eq_div_pow, Nat.shiftRight_eq_div_pow,
    Nat.shiftRight_eq_div_pow, Nat.shiftRight_eq_div_pow,
    Nat.shiftRight_eq_div_pow]
  omega

lemma decodeCounter_raw (t b6 b7 b8 : Nat) (tail : List Nat) :
    decodeCounter (tsBytes t ++ [b6, b7, b8] ++ tail) =
      unpack_counter b6 b7 b8 := by
  show (b6 &&& 0x0f) <<< 14 + b7 <<< 6 + (b8 &&& 0x3f) = unpack_counter b6 b7 b8
  rw [unpack_counter_eq, and_fifteen, and_sixtythree, Nat.shiftLeft_eq,
    Nat.shiftLeft_eq]
  omega

/-! ### Byte ranges of a finalized UUID -/

lemma finalize_take6 (t b6 b7 b8 : Nat) (tail : List Nat) :
    (finalize t b6 b7 b8 tail).take 6 = tsBytes t := rfl

lemma finalize_take9 (t b6 b7 b8 : Nat) (tail : List Nat) :
    (finalize t b6 b7 b8 tail).take 9 =
      tsBytes t ++ [(b6 &&& 0x0f) ||| 0x70, b7, (b8 &&& 0x3f) ||| 0x80] := rfl

lemma finalize_drop9 (t b6 b7 b8 : Nat) (tail : List Nat) :
    (finalize t b6 b7 b8 tail).drop 9 = tail := rfl

/-! ### The claims -/

/-- C1 counterexample: a failed entropy request in the non-advancing branch
does NOT leave the state unchanged.  From state
`(sequence_counter, previous_timestamp) = (5, 1000)` with the clock reading
1000 (not advancing), the failed call aborts with no UUID but the committed
state is no longer `(5, 1000)`: the counter increment at line 107 ran
before `pg_strong_random` at line 119. -/
theorem uuidv7_failure_mutates_state :
    (generate ⟨5, 1000⟩ 1000 false (fun _ => 0)).uuid = none ∧
      (generate ⟨5, 1000⟩ 1000 false (fun _ => 0)).state ≠ ⟨5, 1000⟩ := by
  decide

/-- C1 (amended): a failed entropy request always aborts the call with no
UUID.  In the timestamp-advancing branch both state fields are unchanged;
in the non-advancing branch the state has already been stepped by the
counter increment (with its possible overflow carry into the timestamp)
before the entropy request, so precisely that incremented state is what a
failed call leaves behind. -/
theorem uuidv7_failure_state (st : GenState) (clock : Nat) (rnd : Nat → Nat) :
    (generate st clock false rnd).uuid = none ∧
      (generate st clock false rnd).state =
        (if clock % 2 ^ 64 > st.previous_timestamp then st
         else incrementState st) := by
  by_cases h : clock % 2 ^ 64 > st.previous_timestamp
  · rw [generate_fail_adv rnd h, if_pos h]
    exact ⟨rfl, rfl⟩
  · rw [generate_fail_nonadv rnd h, if_neg h]
    exact ⟨rfl, rfl⟩

/-- C3: every successful call returns a UUID whose byte 6 has high nibble
`0111` (version 7) and whose byte 8 has top 2 bits `10` (variant),
regardless of state, clock value, or random bytes. -/
theorem uuidv7_version_variant (st : GenState) (clock : Nat)
    (rnd : Nat → Nat) :
    ∃ u, (generate st clock true rnd).uuid = some u ∧
      versionNibble u = 7 ∧ variantBits u = 2 := by
  by_cases h : clock % 2 ^ 64 > st.previous_timestamp
  · rw [generate_adv rnd h]
    exact ⟨_, rfl, versionNibble_finalize _ _ _ _ _,
      variantBits_finalize _ _ _ _ _⟩
  · rw [generate_nonadv rnd h]
    exact ⟨_, rfl, versionNibble_finalize _ _ _ _ _,
      variantBits_finalize _ _ _ _ _⟩

/-- C8 counterexample: the counter reconstruction at lines 95-97 does not
read the top 2 bits of byte 8 — it reads its low 6 bits (`& 0x3f`).  On
byte values `(b6, b7, b8) = (0, 0, 1)` the source's reconstruction and the
spec-worded one disagree, and the spec-worded reconstruction fails to
invert the counter write already at counter value 1. -/
theorem uuidv7_unpack_layout_counterexample :
    unpack_counter 0 0 1 ≠ unpack_counter_top2 0 0 1 ∧
      unpack_counter_top2 (pack_counter 1).1 (pack_counter 1).2.1
        (pack_counter 1).2.2 ≠ 1 := by
  decide

/-- C8 (amended): the reconstruction (lines 95-97) reads the low nibble of
byte 6, all of byte 7 and the LOW 6 bits of byte 8, which is the same field
layout as the counter write (lines 125-129: top 4 bits into byte 6, middle
8 into byte 7, low 6 into byte 8): for every 18-bit counter value,
unpacking the packed bytes yields the original value, also after the
version/variant fix-up of a finalized UUID. -/
theorem pack_unpack_roundtrip (c : Nat) (h : c < 2 ^ 18) :
    unpack_counter (pack_counter c).1 (pack_counter c).2.1
        (pack_counter c).2.2 = c ∧
      ∀ t tail, decodeCounter (finalize t (pack_counter c).1
        (pack_counter c).2.1 (pack_counter c).2.2 tail) = c := by
  constructor
  · exact pack_unpack c (by omega)
  · intro t tail
    rw [decodeCounter_finalize]
    exact pack_unpack c (by omega)

/-- C8 witness: the roundtrip at the concrete 18-bit counter value 200000. -/
theorem pack_unpack_roundtrip_witness :
    unpack_counter (pack_counter 200000).1 (pack_counter 200000).2.1
        (pack_counter 200000).2.2 = 200000 ∧
      ∀ t tail, decodeCounter (finalize t (pack_counter 200000).1
        (pack_counter 200000).2.1 (pack_counter 200000).2.2 tail) = 200000 :=
  pack_unpack_roundtrip 200000 (by decide)

/-- C9: after every successful call the returned UUID is in sync with the
committed state — the decoded 48-bit timestamp equals the post-call
`previous_timestamp` modulo `2 ^ 48` and the decoded 18-bit counter equals
the post-call `sequence_counter` — and the version/variant fix-up never
alters either decoded field of the pre-fix-up byte array. -/
theorem uuidv7_state_output_sync (st : GenState) (clock : Nat)
    (rnd : Nat → Nat) :
    (∃ u, (generate st clock true rnd).uuid = some u ∧
      decodeTimestamp u =
        (generate st clock true rnd).state.previous_timestamp % 2 ^ 48 ∧
      decodeCounter u = (generate st clock true rnd).state.sequence_counter) ∧
    ∀ t b6 b7 b8 tail,
      decodeTimestamp (finalize t b6 b7 b8 tail) =
          decodeTimestamp (tsBytes t ++ [b6, b7, b8] ++ tail) ∧
        decodeCounter (finalize t b6 b7 b8 tail) =
          decodeCounter (tsBytes t ++ [b6, b7, b8] ++ tail) := by
  constructor
  · obtain ⟨u, hu⟩ := generate_true_some st clock rnd
    have ht := generate_decodeTimestamp st clock rnd
    have hc := generate_decodeCounter st clock rnd
    rw [hu] at ht hc
    simp only [Option.getD_some] at ht hc
    exact ⟨u, hu, ht, hc⟩
  · intro t b6 b7 b8 tail
    rw [decodeTimestamp_finalize, decodeTimestamp_raw,
      decodeCounter_finalize, decodeCounter_raw]
    exact ⟨rfl, rfl⟩

/-- C10: the timestamp field is the millisecond value reduced modulo
`2 ^ 48` — the write at lines 133-138 keeps only the low 48 bits of `tms`,
big-endian — and no error is raised for out-of-range timestamps: every
call with working entropy succeeds no matter how large the clock value
is. -/
theorem uuidv7_timestamp_mod48 :
    (∀ t b6 b7 b8 tail,
      decodeTimestamp (finalize t b6 b7 b8 tail) = t % 2 ^ 48 ∧
        tsBytes t = tsBytes (t % 2 ^ 48)) ∧
      ∀ (st : GenState) (clock : Nat) (rnd : Nat → Nat),
        ((generate st clock true rnd).uuid).isSome = true := by
  constructor
  · intro t b6 b7 b8 tail
    refine ⟨decodeTimestamp_finalize _ _ _ _ _, ?_⟩
    simp only [tsBytes, Nat.shiftRight_eq_div_pow, List.cons.injEq, and_true]
    omega
  · intro st clock rnd
    obtain ⟨u, hu⟩ := generate_true_some st clock rnd
    rw [hu]
    rfl

/-- C2 counterexample: strict monotonicity does NOT hold for arbitrary
clock values.  Starting from the initial state `(0, 0)`, two successful
calls with clock readings `2 ^ 48 - 1` and `2 ^ 48` both take the
advancing branch, but the second UUID encodes only the low 48 bits of the
timestamp (which are 0), so as 128-bit big-endian integers the second
output is smaller than the first. -/
theorem uuidv7_monotonicity_counterexample :
    (runTrace ⟨0, 0⟩
        [(2 ^ 48 - 1, fun _ => 0), (2 ^ 48, fun _ => 0)]).1.length = 2 ∧
      ¬ (toBigEndianNat ((runTrace ⟨0, 0⟩
            [(2 ^ 48 - 1, fun _ => 0), (2 ^ 48, fun _ => 0)]).1.getD 0 []) <
          toBigEndianNat ((runTrace ⟨0, 0⟩
            [(2 ^ 48 - 1, fun _ => 0), (2 ^ 48, fun _ => 0)]).1.getD 1 [])) := by
  decide

/-- C2 (amended): for every sequence of consecutive successful calls on one
instance, the outputs read as 128-bit big-endian integers are strictly
increasing, provided every timestamp involved stays below `2 ^ 48` (the
stored `previous_timestamp` keeps enough headroom for the trace and each
clock reading does too; without this bound the 48-bit truncation of the
timestamp field can wrap, see the counterexample). -/
theorem uuidv7_monotone (st : GenState) (calls : List (Nat × (Nat → Nat)))
    (hprev : st.previous_timestamp + calls.length < 2 ^ 48)
    (hclocks : ∀ p ∈ calls, p.1 + calls.length < 2 ^ 48) :
    List.Chain' (fun a b => toBigEndianNat a < toBigEndianNat b)
      (runTrace st calls).1 := by
  cases calls with
  | nil => simp [runTrace]
  | cons hd rest =>
    obtain ⟨c, r⟩ := hd
    simp only [List.length_cons] at hprev
    have hc : c + (rest.length + 1) < 2 ^ 48 := by
      simpa using hclocks (c, r) (by simp)
    rw [runTrace_cons]
    apply chain_aux rest _ _ (generate_link st c r) (generate_seq_le st c r)
    · rcases generate_prev_cases st c r (by omega) with hp | hp <;> omega
    · intro p hp
      have := hclocks p (List.mem_cons_of_mem _ hp)
      simp only [List.length_cons] at this
      omega

/-- C2 witness: a concrete three-call trace (same millisecond twice, then
an advance) from the initial state is strictly increasing. -/
theorem uuidv7_monotone_witness :
    List.Chain' (fun a b => toBigEndianNat a < toBigEndianNat b)
      (runTrace ⟨0, 0⟩
        [(1, fun _ => 0), (1, fun _ => 0), (2, fun _ => 0)]).1 :=
  uuidv7_monotone ⟨0, 0⟩ [(1, fun _ => 0), (1, fun _ => 0), (2, fun _ => 0)]
    (by decide) (by decide)

/-- C4 counterexample: when the stored `previous_timestamp` is `2 ^ 48`,
a non-advancing call (clock reading 5, no counter overflow) produces a
UUID whose decoded 48-bit timestamp field is 0, not `previous_timestamp`:
the field only holds the low 48 bits. -/
theorem uuidv7_clock_regression_counterexample :
    (5 : Nat) ≤ 2 ^ 48 ∧
      decodeCounter
          ((generate ⟨0, 2 ^ 48⟩ 5 true (fun _ => 0)).uuid.getD []) = 1 ∧
      decodeTimestamp
          ((generate ⟨0, 2 ^ 48⟩ 5 true (fun _ => 0)).uuid.getD [])
        ≠ 2 ^ 48 := by
  decide

/-- C4 (amended): for every state and every clock reading at most the
stored `previous_timestamp`, the decoded 48-bit timestamp field of the
produced UUID equals `previous_timestamp` modulo `2 ^ 48` — or
`previous_timestamp + 1` modulo `2 ^ 48` when the counter overflows —
never the smaller clock reading. -/
theorem uuidv7_clock_regression (st : GenState) (clock : Nat)
    (rnd : Nat → Nat) (hclock : clock ≤ st.previous_timestamp) :
    ∃ u, (generate st clock true rnd).uuid = some u ∧
      decodeTimestamp u =
        (if (st.sequence_counter + 1) % 2 ^ 32 > 0x3ffff
         then (st.previous_timestamp + 1) % 2 ^ 48
         else st.previous_timestamp % 2 ^ 48) := by
  have h : ¬ clock % 2 ^ 64 > st.previous_timestamp := by
    have := Nat.mod_le clock (2 ^ 64)
    omega
  rw [generate_nonadv rnd h]
  refine ⟨_, rfl, ?_⟩
  show decodeTimestamp (tickUuid (incrementState st) rnd) = _
  unfold tickUuid
  rw [decodeTimestamp_finalize]
  unfold incrementState
  by_cases h2 : (st.sequence_counter + 1) % 2 ^ 32 > 0x3ffff
  · rw [if_pos h2, if_pos h2]
    dsimp only
    omega
  · rw [if_neg h2, if_neg h2]

/-- C4 witness: from state `(5, 1000)` with clock reading 999 the decoded
timestamp is `1000 % 2 ^ 48`. -/
theorem uuidv7_clock_regression_witness :
    ∃ u, (generate ⟨5, 1000⟩ 999 true (fun _ => 0)).uuid = some u ∧
      decodeTimestamp u =
        (if ((5 : Nat) + 1) % 2 ^ 32 > 0x3ffff then (1000 + 1) % 2 ^ 48
         else (1000 : Nat) % 2 ^ 48) :=
  uuidv7_clock_regression ⟨5, 1000⟩ 999 (fun _ => 0) (by decide)

/-- C5 counterexample: with the counter at its maximum and
`previous_timestamp = 2 ^ 48 - 1`, a non-advancing call resets the counter
to 0 as claimed, but the decoded timestamp is `0 = 2 ^ 48 % 2 ^ 48`, not
`previous_timestamp + 1`: the field wraps at 48 bits. -/
theorem uuidv7_rollover_counterexample :
    decodeCounter ((generate ⟨0x3ffff, 2 ^ 48 - 1⟩ 0 true
        (fun _ => 0)).uuid.getD []) = 0 ∧
      decodeTimestamp ((generate ⟨0x3ffff, 2 ^ 48 - 1⟩ 0 true
        (fun _ => 0)).uuid.getD []) ≠ 2 ^ 48 - 1 + 1 := by
  decide

/-- C5 (amended): when the counter is at its maximum 262143 and the clock
does not advance past `previous_timestamp`, a successful call produces a
UUID whose decoded counter is 0 and whose decoded timestamp is
`(previous_timestamp + 1) % 2 ^ 48`, even if the raw clock reports an
earlier or equal value; the committed counter is reset to 0, and after any
successful call the committed counter lies in `[0, 262143]`. -/
theorem uuidv7_rollover (st : GenState) (clock : Nat) (rnd : Nat → Nat)
    (hseq : st.sequence_counter = 0x3ffff)
    (hclock : clock ≤ st.previous_timestamp) :
    (∃ u, (generate st clock true rnd).uuid = some u ∧
      decodeCounter u = 0 ∧
      decodeTimestamp u = (st.previous_timestamp + 1) % 2 ^ 48 ∧
      (generate st clock true rnd).state.sequence_counter = 0) ∧
    ∀ (st2 : GenState) (c2 : Nat) (r2 : Nat → Nat),
      (generate st2 c2 true r2).state.sequence_counter ≤ 262143 := by
  constructor
  · have h : ¬ clock % 2 ^ 64 > st.previous_timestamp := by
      have := Nat.mod_le clock (2 ^ 64)
      omega
    rw [generate_nonadv rnd h, incrementState_of_max hseq]
    refine ⟨_, rfl, ?_, ?_, rfl⟩
    · show decodeCounter (tickUuid ⟨0, (st.previous_timestamp + 1) % 2 ^ 64⟩
        rnd) = 0
      unfold tickUuid
      rw [decodeCounter_finalize]
      exact pack_unpack 0 (by norm_num)
    · show decodeTimestamp (tickUuid ⟨0, (st.previous_timestamp + 1) % 2 ^ 64⟩
        rnd) = (st.previous_timestamp + 1) % 2 ^ 48
      unfold tickUuid
      rw [decodeTimestamp_finalize]
      dsimp only
      omega
  · intro st2 c2 r2
    exact generate_seq_le st2 c2 r2

/-- C5 witness: the rollover from the concrete state `(262143, 50)` with
clock reading 50. -/
theorem uuidv7_rollover_witness :
    (∃ u, (generate ⟨262143, 50⟩ 50 true (fun _ => 0)).uuid = some u ∧
      decodeCounter u = 0 ∧
      decodeTimestamp u = (50 + 1) % 2 ^ 48 ∧
      (generate ⟨262143, 50⟩ 50 true (fun _ => 0)).state.sequence_counter
        = 0) ∧
    ∀ (st2 : GenState) (c2 : Nat) (r2 : Nat → Nat),
      (generate st2 c2 true r2).state.sequence_counter ≤ 262143 :=
  uuidv7_rollover ⟨262143, 50⟩ 50 (fun _ => 0) rfl (by decide)

/-- C6 counterexample: two outputs sharing the same decoded timestamp need
not have counters differing by exactly 1 (mod 262144) when they are not
consecutive.  Three successful calls from the initial state, all at clock
reading 1, give first and third outputs with equal decoded timestamps but
counters 0 and 2. -/
theorem uuidv7_continuity_counterexample :
    decodeTimestamp ((runTrace ⟨0, 0⟩ [(1, fun _ => 0), (1, fun _ => 0),
          (1, fun _ => 0)]).1.getD 0 []) =
        decodeTimestamp ((runTrace ⟨0, 0⟩ [(1, fun _ => 0), (1, fun _ => 0),
          (1, fun _ => 0)]).1.getD 2 []) ∧
      ¬ ((decodeCounter ((runTrace ⟨0, 0⟩ [(1, fun _ => 0), (1, fun _ => 0),
            (1, fun _ => 0)]).1.getD 2 []) + 262144 -
          decodeCounter ((runTrace ⟨0, 0⟩ [(1, fun _ => 0), (1, fun _ => 0),
            (1, fun _ => 0)]).1.getD 0 [])) % 262144 = 1 ∨
        (decodeCounter ((runTrace ⟨0, 0⟩ [(1, fun _ => 0), (1, fun _ => 0),
            (1, fun _ => 0)]).1.getD 0 []) + 262144 -
          decodeCounter ((runTrace ⟨0, 0⟩ [(1, fun _ => 0), (1, fun _ => 0),
            (1, fun _ => 0)]).1.getD 2 [])) % 262144 = 1) := by
  decide

/-- C6 (amended): the outputs of two CONSECUTIVE successful calls that
share the same decoded 48-bit timestamp have decoded counters differing by
exactly 1 (mod 262144), provided the stored timestamp and clock readings
stay below `2 ^ 48`; in particular (see the witness, Scenario A), from
state `(5, 1000)` with the clock returning 1000 the output decodes to
timestamp 1000 and counter 6. -/
theorem uuidv7_counter_continuity (st : GenState) (clock₁ clock₂ : Nat)
    (rnd₁ rnd₂ : Nat → Nat)
    (hprev : st.previous_timestamp + 2 < 2 ^ 48)
    (h1 : clock₁ + 2 < 2 ^ 48) (h2 : clock₂ < 2 ^ 48) :
    ∃ u₁ u₂,
      (generate st clock₁ true rnd₁).uuid = some u₁ ∧
      (generate (generate st clock₁ true rnd₁).state clock₂ true rnd₂).uuid
        = some u₂ ∧
      (decodeTimestamp u₁ = decodeTimestamp u₂ →
        decodeCounter u₂ = (decodeCounter u₁ + 1) % 262144) := by
  obtain ⟨u₁, hu₁⟩ := generate_true_some st clock₁ rnd₁
  have d1t := generate_decodeTimestamp st clock₁ rnd₁
  have d1c := generate_decodeCounter st clock₁ rnd₁
  rw [hu₁] at d1t d1c
  simp only [Option.getD_some] at d1t d1c
  have hseq₁ := generate_seq_le st clock₁ rnd₁
  have hp1 : (generate st clock₁ true rnd₁).state.previous_timestamp + 1 <
      2 ^ 48 := by
    rcases generate_prev_cases st clock₁ rnd₁ (by omega) with hp | hp <;> omega
  rw [Nat.mod_eq_of_lt (by omega)] at d1t
  by_cases hadv : clock₂ % 2 ^ 64 >
      (generate st clock₁ true rnd₁).state.previous_timestamp
  · refine ⟨u₁, advanceUuid (clock₂ % 2 ^ 64) rnd₂, hu₁, ?_, ?_⟩
    · rw [generate_adv rnd₂ hadv]
    · intro hts
      exfalso
      have hts2 := decodeTimestamp_advanceUuid (clock₂ % 2 ^ 64) rnd₂
      omega
  · refine ⟨u₁, tickUuid (incrementState
      (generate st clock₁ true rnd₁).state) rnd₂, hu₁, ?_, ?_⟩
    · rw [generate_nonadv rnd₂ hadv]
    · intro hts
      rw [decodeTimestamp_tickUuid] at hts
      by_cases hov :
          (generate st clock₁ true rnd₁).state.sequence_counter = 0x3ffff
      · exfalso
        rw [incrementState_of_max hov] at hts
        dsimp only at hts
        omega
      · rw [decodeCounter_tickUuid _ rnd₂ (incrementState_seq_le _),
          incrementState_of_lt (by omega), d1c]
        dsimp only
        omega

/-- C6 witness (Scenario A): from state `(4, 1000)`, a first call at clock
999 commits `(5, 1000)`, and the next call at clock 1000 shares its decoded
timestamp, so its decoded counter is `5 + 1 = 6`. -/
theorem uuidv7_counter_continuity_witness :
    ∃ u₁ u₂,
      (generate ⟨4, 1000⟩ 999 true (fun _ => 0)).uuid = some u₁ ∧
      (generate (generate ⟨4, 1000⟩ 999 true (fun _ => 0)).state 1000 true
        (fun _ => 0)).uuid = some u₂ ∧
      (decodeTimestamp u₁ = decodeTimestamp u₂ →
        decodeCounter u₂ = (decodeCounter u₁ + 1) % 262144) :=
  uuidv7_counter_continuity ⟨4, 1000⟩ 999 1000 (fun _ => 0) (fun _ => 0)
    (by decide) (by decide) (by decide)

/-- C7: on a timestamp-advancing call exactly 10 random bytes are
requested; on a non-advancing call exactly 7.  In both cases bytes 0-5 of
the output are the timestamp bytes of the committed `previous_timestamp`
(identical under any random stream), bytes 9-15 are exactly the trailing
random bytes of the call, and on a non-advancing call bytes 6-8 do not
depend on the random stream either. -/
theorem uuidv7_entropy_scope (st : GenState) (clock : Nat)
    (rnd rnd2 : Nat → Nat) :
    ∃ u v,
      (generate st clock true rnd).uuid = some u ∧
      (generate st clock true rnd2).uuid = some v ∧
      u.take 6 =
        tsBytes ((generate st clock true rnd).state.previous_timestamp) ∧
      v.take 6 = u.take 6 ∧
      (if clock % 2 ^ 64 > st.previous_timestamp then
        (generate st clock true rnd).bytesRequested = 10 ∧
          u.drop 9 = [rnd 3 % 256, rnd 4 % 256, rnd 5 % 256, rnd 6 % 256,
            rnd 7 % 256, rnd 8 % 256, rnd 9 % 256]
      else
        (generate st clock true rnd).bytesRequested = 7 ∧
          u.drop 9 = [rnd 0 % 256, rnd 1 % 256, rnd 2 % 256, rnd 3 % 256,
            rnd 4 % 256, rnd 5 % 256, rnd 6 % 256] ∧
          u.take 9 = v.take 9) := by
  by_cases h : clock % 2 ^ 64 > st.previous_timestamp
  · rw [generate_adv rnd h, generate_adv rnd2 h]
    refine ⟨_, _, rfl, rfl, finalize_take6 _ _ _ _ _,
      (finalize_take6 _ _ _ _ _).trans (finalize_take6 _ _ _ _ _).symm, ?_⟩
    rw [if_pos h]
    exact ⟨rfl, finalize_drop9 _ _ _ _ _⟩
  · rw [generate_nonadv rnd h, generate_nonadv rnd2 h]
    refine ⟨_, _, rfl, rfl, finalize_take6 _ _ _ _ _,
      (finalize_take6 _ _ _ _ _).trans (finalize_take6 _ _ _ _ _).symm, ?_⟩
    rw [if_neg h]
    exact ⟨rfl, finalize_drop9 _ _ _ _ _,
      (finalize_take9 _ _ _ _ _).trans (finalize_take9 _ _ _ _ _).symm⟩

end PgUuidV7
